import Mathlib

/-!
Verification development for the secp256k1 recoverable-signature module
(`src/signature.rs` of `cita-secp256k1`).

Byte buffers are modelled as `List Nat` (each entry one byte); 256-bit
hash values (`H256`) of the external `cita-types` crate are modelled by
their numeric value, read big-endian, as the specification describes.
The external curve engine (`rust-secp256k1`) is kept abstract as a
structure of operations mirroring the engine API actually consumed.
-/

namespace CitaSecp

/-- Length of a recoverable signature in bytes (`SIGNATURE_BYTES_LEN`). -/
def SIGNATURE_BYTES_LEN : Nat := 65

/-- Big-endian numeric value of a byte string. -/
def beNat (l : List Nat) : Nat := l.foldl (fun acc b => acc * 256 + b) 0

/-- Numeric value of one hexadecimal digit character. -/
def hexDigitVal (c : Char) : Nat :=
  if 97 ≤ c.toNat then c.toNat - 87
  else if 65 ≤ c.toNat then c.toNat - 55
  else c.toNat - 48

/-- Modelled from the spec: `H256::from_str` of the external `cita-types`
crate, read as the numeric value of the hexadecimal string (the spec reads
the hex constants of `is_valid` / `is_low_s` as unsigned 256-bit integers). -/
def h256FromStr (s : String) : Nat :=
  s.data.foldl (fun acc c => acc * 16 + hexDigitVal c) 0

/-- Modelled from the spec: `H256::from_slice` of the external `cita-types`
crate; a 32-byte slice interpreted as an unsigned big-endian integer
(fixed-width byte-array comparison coincides with numeric comparison). -/
def h256FromSlice (l : List Nat) : Nat := beNat l

/-- The secp256k1 group order `n`. -/
def secpOrder : Nat :=
  0xfffffffffffffffffffffffffffffffebaaedce6af48a03bbfd25e8cd0364141

/-- The half group order `n / 2`. -/
def halfOrder : Nat :=
  0x7fffffffffffffffffffffffffffffff5d576e7357a4501ddfe92f46681b20a0

/-- `pub struct Signature(pub [u8; 65])`. -/
structure Signature where
  bytes : List Nat
deriving DecidableEq

/-- `Signature::r`: bytes `[0,32)` of the buffer. -/
def Signature.r (sig : Signature) : List Nat := sig.bytes.take 32

/-- `Signature::s`: bytes `[32,64)` of the buffer. -/
def Signature.s (sig : Signature) : List Nat := (sig.bytes.drop 32).take 32

/-- `Signature::v`: byte 64 of the buffer. -/
def Signature.v (sig : Signature) : Nat := sig.bytes.getD 64 0

/-- `Signature::is_low_s`. -/
def Signature.is_low_s (sig : Signature) : Bool :=
  decide (h256FromSlice sig.s ≤
    h256FromStr "7FFFFFFFFFFFFFFFFFFFFFFFFFFFFFFF5D576E7357A4501DDFE92F46681B20A0")

/-- `Signature::is_valid`. -/
def Signature.is_valid (sig : Signature) : Bool :=
  decide (sig.v ≤ 1)
    && decide (h256FromSlice sig.r <
      h256FromStr "fffffffffffffffffffffffffffffffebaaedce6af48a03bbfd25e8cd0364141")
    && decide (h256FromSlice sig.r ≥ h256FromStr "1")
    && decide (h256FromSlice sig.s <
      h256FromStr "fffffffffffffffffffffffffffffffebaaedce6af48a03bbfd25e8cd0364141")
    && decide (h256FromSlice sig.s ≥ h256FromStr "1")

/-- Byte representation of the value 1 as a 32-byte big-endian string. -/
def oneBytes32 : List Nat := List.replicate 31 0 ++ [1]

/-- Byte representation of `n - 1` (`n` the secp256k1 group order). -/
def nMinus1Bytes : List Nat :=
  [0xff, 0xff, 0xff, 0xff, 0xff, 0xff, 0xff, 0xff,
   0xff, 0xff, 0xff, 0xff, 0xff, 0xff, 0xff, 0xfe,
   0xba, 0xae, 0xdc, 0xe6, 0xaf, 0x48, 0xa0, 0x3b,
   0xbf, 0xd2, 0x5e, 0x8c, 0xd0, 0x36, 0x41, 0x40]

/-- Byte representation of the half group order `n / 2`. -/
def halfBytes : List Nat :=
  [0x7f, 0xff, 0xff, 0xff, 0xff, 0xff, 0xff, 0xff,
   0xff, 0xff, 0xff, 0xff, 0xff, 0xff, 0xff, 0xff,
   0x5d, 0x57, 0x6e, 0x73, 0x57, 0xa4, 0x50, 0x1d,
   0xdf, 0xe9, 0x2f, 0x46, 0x68, 0x1b, 0x20, 0xa0]

/-- C1: for a 65-byte signature, `is_valid()` holds iff the recovery byte
`v` is 0 or 1 and both `r` and `s`, read as big-endian 256-bit integers,
lie in `[1, n)` for `n` the secp256k1 group order; in particular `r = 0`
and `r = n` are rejected while `r = n - 1` passes the range check on `r`. -/
theorem is_valid_range (sig : Signature) (h : sig.bytes.length = 65) :
    (sig.is_valid = true ↔
      ((sig.v = 0 ∨ sig.v = 1) ∧
        1 ≤ beNat sig.r ∧ beNat sig.r < secpOrder ∧
        1 ≤ beNat sig.s ∧ beNat sig.s < secpOrder)) ∧
    (beNat sig.r = 0 → sig.is_valid = false) ∧
    (beNat sig.r = secpOrder → sig.is_valid = false) ∧
    (beNat sig.r = secpOrder - 1 →
      (1 ≤ beNat sig.r ∧ beNat sig.r < secpOrder)) := by
  have hn :
      h256FromStr "fffffffffffffffffffffffffffffffebaaedce6af48a03bbfd25e8cd0364141" =
        secpOrder := by decide
  have h1 : h256FromStr "1" = 1 := by decide
  have hord : 2 ≤ secpOrder := by decide
  have hiff : sig.is_valid = true ↔
      ((sig.v = 0 ∨ sig.v = 1) ∧
        1 ≤ beNat sig.r ∧ beNat sig.r < secpOrder ∧
        1 ≤ beNat sig.s ∧ beNat sig.s < secpOrder) := by
    simp only [Signature.is_valid, h256FromSlice, hn, h1, Bool.and_eq_true,
      decide_eq_true_eq, ge_iff_le]
    omega
  refine ⟨hiff, ?_, ?_, ?_⟩
  · intro h0
    cases hbool : sig.is_valid with
    | false => rfl
    | true => exact absurd (hiff.mp hbool) (by omega)
  · intro h0
    cases hbool : sig.is_valid with
    | false => rfl
    | true => exact absurd (hiff.mp hbool) (by omega)
  · intro h0
    omega

/-- Witness for C1 at a concrete signature with `r = n - 1`, `s = 1`, `v = 1`. -/
theorem is_valid_range_witness :
    (⟨nMinus1Bytes ++ oneBytes32 ++ [1]⟩ : Signature).is_valid = true :=
  ((is_valid_range ⟨nMinus1Bytes ++ oneBytes32 ++ [1]⟩ (by decide)).1).mpr (by decide)

/-- C9: for a 65-byte signature, `is_low_s()` holds iff `s`, read as a
big-endian 256-bit integer, is at most the half group order `n / 2`; the
boundary value itself is accepted. -/
theorem is_low_s_iff (sig : Signature) (h : sig.bytes.length = 65) :
    (sig.is_low_s = true ↔ beNat sig.s ≤ halfOrder) ∧
    (beNat sig.s = halfOrder → sig.is_low_s = true) := by
  have hh :
      h256FromStr "7FFFFFFFFFFFFFFFFFFFFFFFFFFFFFFF5D576E7357A4501DDFE92F46681B20A0" =
        halfOrder := by decide
  constructor
  · simp only [Signature.is_low_s, h256FromSlice, hh, decide_eq_true_eq]
  · intro h0
    simp only [Signature.is_low_s, h256FromSlice, hh, decide_eq_true_eq]
    omega

/-- Witness for C9 at a concrete signature whose `s` equals `n / 2` exactly. -/
theorem is_low_s_iff_witness :
    (⟨List.replicate 32 0 ++ halfBytes ++ [0]⟩ : Signature).is_low_s = true :=
  (is_low_s_iff ⟨List.replicate 32 0 ++ halfBytes ++ [0]⟩ (by decide)).2 (by decide)

/-- Errors of the external `secp256k1` engine (`secp256k1::Error`). -/
inductive SecpError
  | incorrectSignature
  | invalidMessage
  | invalidRecoveryId
  | invalidSignature
  | invalidPublicKey
  | otherError
deriving DecidableEq

/-- The library error type; its only use here is `Error::from(SecpError)`. -/
inductive Error
  | secp (e : SecpError)
deriving DecidableEq

/-- Lift an engine result through `From<SecpError> for Error` (the `?`
conversion). -/
def liftSecp : Except SecpError α → Except Error α
  | .ok a => .ok a
  | .error e => .error (.secp e)

/-- The external curve engine, kept abstract: each field mirrors the exact
engine operation consumed by `signature.rs`.  A recoverable signature is
represented by its compact 64-byte data together with its recovery id; a
standard signature and a public-key point by opaque byte strings. -/
structure SecpEngine where
  sign_ecdsa_recoverable : List Nat → List Nat → List Nat × Nat
  from_compact : List Nat → Nat → Except SecpError (List Nat × Nat)
  to_standard : List Nat × Nat → List Nat
  verify_ecdsa : List Nat → List Nat → List Nat → Except SecpError Unit
  public_key_from_slice : List Nat → Except SecpError (List Nat)
  recover_ecdsa : List Nat → List Nat × Nat → Except SecpError (List Nat)
  serialize_uncompressed : List Nat → List Nat

/-- Modelled from the spec: `RecoveryId::from_i32` of the external engine
accepts exactly the values 0, 1, 2, 3 and fails otherwise. -/
def recoveryIdFrom (v : Nat) : Except SecpError Nat :=
  if v ≤ 3 then .ok v else .error .invalidRecoveryId

/-- Modelled from the spec: `SecpMessage::from_slice` of the external
engine requires a digest of exactly 32 bytes. -/
def secpMessageFromSlice (m : List Nat) : Except SecpError (List Nat) :=
  if m.length = 32 then .ok m else .error .invalidMessage

/-- The free function `sign(privkey, message)`. -/
def sign (eng : SecpEngine) (privkey message : List Nat) :
    Except Error Signature := do
  let m ← liftSecp (secpMessageFromSlice message)
  let p := eng.sign_ecdsa_recoverable m privkey
  pure ⟨p.1.take 64 ++ [p.2 % 256]⟩

/-- Outcome of the trait method `<Signature as Sign>::sign`, whose body
uses `.unwrap()` on the digest parse and so may abort instead of
returning a typed error. -/
inductive SignOutcome
  | ok (sig : Signature)
  | err (e : Error)
  | panicked
deriving DecidableEq

/-- Map a `Result` to the outcome type shared with the trait method. -/
def toOutcome : Except Error Signature → SignOutcome
  | .ok s => .ok s
  | .error e => .err e

/-- The trait method `<Signature as Sign>::sign` (separately written body;
the digest parse uses `.unwrap()`). -/
def signTraitImpl (eng : SecpEngine) (privkey message : List Nat) :
    SignOutcome :=
  match secpMessageFromSlice message with
  | .error _ => .panicked
  | .ok m =>
    let p := eng.sign_ecdsa_recoverable m privkey
    .ok ⟨p.1.take 64 ++ [p.2 % 256]⟩

/-- The free function `recover(signature, message)`. -/
def recover (eng : SecpEngine) (signature : Signature) (message : List Nat) :
    Except Error (List Nat) := do
  let rid ← liftSecp (recoveryIdFrom (signature.bytes.getD 64 0))
  let rsig ← liftSecp (eng.from_compact (signature.bytes.take 64) rid)
  let m ← liftSecp (secpMessageFromSlice message)
  let publ ← liftSecp (eng.recover_ecdsa m rsig)
  let serialized := eng.serialize_uncompressed publ
  pure ((serialized.drop 1).take 64)

/-- The trait method `<Signature as Sign>::recover` (separately written,
byte-for-byte analogous body). -/
def recoverTraitImpl (eng : SecpEngine) (signature : Signature)
    (message : List Nat) : Except Error (List Nat) := do
  let rid ← liftSecp (recoveryIdFrom (signature.bytes.getD 64 0))
  let rsig ← liftSecp (eng.from_compact (signature.bytes.take 64) rid)
  let m ← liftSecp (secpMessageFromSlice message)
  let publ ← liftSecp (eng.recover_ecdsa m rsig)
  let serialized := eng.serialize_uncompressed publ
  pure ((serialized.drop 1).take 64)

/-- The free function `verify_public(pubkey, signature, message)`. -/
def verify_public (eng : SecpEngine) (pubkey : List Nat) (signature : Signature)
    (message : List Nat) : Except Error Bool := do
  let rid ← liftSecp (recoveryIdFrom (signature.bytes.getD 64 0))
  let rsig ← liftSecp (eng.from_compact (signature.bytes.take 64) rid)
  let sig := eng.to_standard rsig
  let pdata : List Nat := 4 :: pubkey
  let public_key ← liftSecp (eng.public_key_from_slice pdata)
  let m ← liftSecp (secpMessageFromSlice message)
  match eng.verify_ecdsa m sig public_key with
  | .ok _ => pure true
  | .error SecpError.incorrectSignature => pure false
  | .error x => .error (Error.secp x)

/-- The trait method `<Signature as Sign>::verify_public` (separately
written, byte-for-byte analogous body). -/
def verifyPublicTraitImpl (eng : SecpEngine) (pubkey : List Nat)
    (signature : Signature) (message : List Nat) : Except Error Bool := do
  let rid ← liftSecp (recoveryIdFrom (signature.bytes.getD 64 0))
  let rsig ← liftSecp (eng.from_compact (signature.bytes.take 64) rid)
  let sig := eng.to_standard rsig
  let pdata : List Nat := 4 :: pubkey
  let publ ← liftSecp (eng.public_key_from_slice pdata)
  let m ← liftSecp (secpMessageFromSlice message)
  match eng.verify_ecdsa m sig publ with
  | .ok _ => pure true
  | .error SecpError.incorrectSignature => pure false
  | .error x => .error (Error.secp x)

/-- The free function `verify_address(address, signature, message)`;
`pubkey_to_address` is the external hashing collaborator, kept abstract. -/
def verify_address (eng : SecpEngine) (pubkey_to_address : List Nat → List Nat)
    (address : List Nat) (signature : Signature) (message : List Nat) :
    Except Error Bool := do
  let pubkey ← recover eng signature message
  let recovered_address := pubkey_to_address pubkey
  pure (address == recovered_address)

/-- The trait method `<Signature as Sign>::verify_address` (separately
written body, delegating to the trait `recover`). -/
def verifyAddressTraitImpl (eng : SecpEngine)
    (pubkey_to_address : List Nat → List Nat) (address : List Nat)
    (signature : Signature) (message : List Nat) : Except Error Bool := do
  let pubkey ← recoverTraitImpl eng signature message
  let recovered_address := pubkey_to_address pubkey
  pure (address == recovered_address)

/-- A concrete engine instance used only to instantiate witnesses. -/
def testEngine : SecpEngine where
  sign_ecdsa_recoverable := fun _ _ => (List.replicate 64 1, 1)
  from_compact := fun d rid => .ok (d, rid)
  to_standard := fun p => p.1
  verify_ecdsa := fun _ _ _ => .ok ()
  public_key_from_slice := fun l => .ok l
  recover_ecdsa := fun _ p => .ok p.1
  serialize_uncompressed := fun l => 4 :: l

/-- A concrete address-derivation function used only in witnesses. -/
def testAddrOf (pubkey : List Nat) : List Nat := pubkey.take 20

lemma except_bind_ok (a : α) (f : α → Except ε β) :
    (Except.ok a >>= f) = f a := rfl

lemma except_bind_error (e : ε) (f : α → Except ε β) :
    ((Except.error e : Except ε α) >>= f) = .error e := rfl

lemma except_pure (a : α) : (pure a : Except ε α) = .ok a := rfl

lemma except_map_ok (f : α → β) (a : α) :
    (f <$> (Except.ok a : Except ε α)) = .ok (f a) := rfl

lemma except_map_error (f : α → β) (e : ε) :
    (f <$> (Except.error e : Except ε α)) = .error e := rfl

/-- C3: for a 32-byte digest, signing never aborts: both the free `sign`
and the trait `sign` succeed with the packed `r‖s‖v` buffer produced from
the engine output, for every abstract engine. -/
theorem sign_ok (eng : SecpEngine) (privkey message : List Nat)
    (h : message.length = 32) :
    sign eng privkey message =
      .ok ⟨(eng.sign_ecdsa_recoverable message privkey).1.take 64 ++
        [(eng.sign_ecdsa_recoverable message privkey).2 % 256]⟩ ∧
    signTraitImpl eng privkey message =
      SignOutcome.ok ⟨(eng.sign_ecdsa_recoverable message privkey).1.take 64 ++
        [(eng.sign_ecdsa_recoverable message privkey).2 % 256]⟩ := by
  have hm : secpMessageFromSlice message = .ok message := by
    simp [secpMessageFromSlice, h]
  constructor
  · simp only [sign, hm, liftSecp, except_bind_ok, except_map_ok, except_pure]
  · simp only [signTraitImpl, hm]

/-- Witness for C3 at the concrete test engine. -/
theorem sign_ok_witness :
    sign testEngine (List.replicate 32 2) (List.replicate 32 0) =
      .ok ⟨(testEngine.sign_ecdsa_recoverable (List.replicate 32 0)
          (List.replicate 32 2)).1.take 64 ++
        [(testEngine.sign_ecdsa_recoverable (List.replicate 32 0)
          (List.replicate 32 2)).2 % 256]⟩ ∧
    signTraitImpl testEngine (List.replicate 32 2) (List.replicate 32 0) =
      SignOutcome.ok ⟨(testEngine.sign_ecdsa_recoverable (List.replicate 32 0)
          (List.replicate 32 2)).1.take 64 ++
        [(testEngine.sign_ecdsa_recoverable (List.replicate 32 0)
          (List.replicate 32 2)).2 % 256]⟩ :=
  sign_ok testEngine (List.replicate 32 2) (List.replicate 32 0) (by decide)

/-- C10: the separately written free functions and trait methods agree:
`sign` agrees with `<Signature as Sign>::sign` on every 32-byte digest
(the digest parse via `?` versus `.unwrap()` makes no difference there),
and `recover` agrees with `<Signature as Sign>::recover` everywhere. -/
theorem free_trait_agree (eng : SecpEngine) (privkey message : List Nat)
    (signature : Signature) (message2 : List Nat) (h : message.length = 32) :
    toOutcome (sign eng privkey message) = signTraitImpl eng privkey message ∧
    recover eng signature message2 = recoverTraitImpl eng signature message2 := by
  have hm : secpMessageFromSlice message = .ok message := by
    simp [secpMessageFromSlice, h]
  constructor
  · simp only [sign, signTraitImpl, hm, liftSecp, except_bind_ok,
      except_map_ok, except_pure, toOutcome]
  · rfl

/-- Witness for C10 at the concrete test engine. -/
theorem free_trait_agree_witness :
    toOutcome (sign testEngine (List.replicate 32 2) (List.replicate 32 0)) =
      signTraitImpl testEngine (List.replicate 32 2) (List.replicate 32 0) ∧
    recover testEngine ⟨List.replicate 65 0⟩ (List.replicate 32 0) =
      recoverTraitImpl testEngine ⟨List.replicate 65 0⟩ (List.replicate 32 0) :=
  free_trait_agree testEngine (List.replicate 32 2) (List.replicate 32 0)
    ⟨List.replicate 65 0⟩ (List.replicate 32 0) (by decide)

/-- C5: `recover` fails immediately with the invalid-recovery-id error
whenever byte 64 exceeds 3 (in particular for `v = 4`), and on success it
returns the engine's uncompressed point with the leading tag byte
stripped (bytes 1..65 of the 65-byte serialization). -/
theorem recover_cases (eng : SecpEngine) (signature : Signature)
    (message : List Nat) :
    (3 < signature.bytes.getD 64 0 →
      recover eng signature message =
        .error (Error.secp SecpError.invalidRecoveryId)) ∧
    (∀ rid rsig publ,
      recoveryIdFrom (signature.bytes.getD 64 0) = .ok rid →
      eng.from_compact (signature.bytes.take 64) rid = .ok rsig →
      message.length = 32 →
      eng.recover_ecdsa message rsig = .ok publ →
      recover eng signature message =
        .ok (((eng.serialize_uncompressed publ).drop 1).take 64)) := by
  constructor
  · intro hv
    have hrid : recoveryIdFrom (signature.bytes.getD 64 0) =
        .error .invalidRecoveryId := by
      unfold recoveryIdFrom
      rw [if_neg (by omega)]
    simp only [recover, hrid, liftSecp, except_bind_error]
  · intro rid rsig publ h1 h2 h3 h4
    have hm : secpMessageFromSlice message = .ok message := by
      simp [secpMessageFromSlice, h3]
    simp only [recover, h1, h2, hm, h4, liftSecp, except_bind_ok,
      except_map_ok, except_pure]

/-- Witness for C5: a signature with `v = 4` is rejected. -/
theorem recover_cases_witness :
    recover testEngine ⟨List.replicate 64 0 ++ [4]⟩ (List.replicate 32 0) =
      .error (Error.secp SecpError.invalidRecoveryId) :=
  (recover_cases testEngine ⟨List.replicate 64 0 ++ [4]⟩
    (List.replicate 32 0)).1 (by decide)

/-- C4: `verify_public` maps the engine's incorrect-signature outcome to
`Ok(false)`, a successful engine verification to `Ok(true)`, and every
other engine failure — including malformed recovery id, malformed
signature data, malformed point and malformed digest — to `Err`; the
trait method computes the same function. -/
theorem verify_public_cases (eng : SecpEngine) (pubkey : List Nat)
    (signature : Signature) (message : List Nat) :
    (∀ rid rsig pk,
      recoveryIdFrom (signature.bytes.getD 64 0) = .ok rid →
      eng.from_compact (signature.bytes.take 64) rid = .ok rsig →
      eng.public_key_from_slice (4 :: pubkey) = .ok pk →
      message.length = 32 →
      ((verify_public eng pubkey signature message = .ok true ↔
          eng.verify_ecdsa message (eng.to_standard rsig) pk = .ok ()) ∧
        (verify_public eng pubkey signature message = .ok false ↔
          eng.verify_ecdsa message (eng.to_standard rsig) pk =
            .error SecpError.incorrectSignature) ∧
        (∀ x, x ≠ SecpError.incorrectSignature →
          eng.verify_ecdsa message (eng.to_standard rsig) pk = .error x →
          verify_public eng pubkey signature message =
            .error (Error.secp x)))) ∧
    (∀ e, recoveryIdFrom (signature.bytes.getD 64 0) = .error e →
      verify_public eng pubkey signature message = .error (Error.secp e)) ∧
    (∀ rid e,
      recoveryIdFrom (signature.bytes.getD 64 0) = .ok rid →
      eng.from_compact (signature.bytes.take 64) rid = .error e →
      verify_public eng pubkey signature message = .error (Error.secp e)) ∧
    (∀ rid rsig e,
      recoveryIdFrom (signature.bytes.getD 64 0) = .ok rid →
      eng.from_compact (signature.bytes.take 64) rid = .ok rsig →
      eng.public_key_from_slice (4 :: pubkey) = .error e →
      verify_public eng pubkey signature message = .error (Error.secp e)) ∧
    (∀ rid rsig pk,
      recoveryIdFrom (signature.bytes.getD 64 0) = .ok rid →
      eng.from_compact (signature.bytes.take 64) rid = .ok rsig →
      eng.public_key_from_slice (4 :: pubkey) = .ok pk →
      message.length ≠ 32 →
      verify_public eng pubkey signature message =
        .error (Error.secp SecpError.invalidMessage)) ∧
    verifyPublicTraitImpl eng pubkey signature message =
      verify_public eng pubkey signature message := by
  refine ⟨?_, ?_, ?_, ?_, ?_, rfl⟩
  · intro rid rsig pk h1 h2 h3 h4
    have hm : secpMessageFromSlice message = .ok message := by
      simp [secpMessageFromSlice, h4]
    have hvp : verify_public eng pubkey signature message =
        (match eng.verify_ecdsa message (eng.to_standard rsig) pk with
          | .ok _ => pure true
          | .error SecpError.incorrectSignature => pure false
          | .error x => .error (Error.secp x)) := by
      simp only [verify_public, h1, h2, h3, hm, liftSecp, except_bind_ok]
    cases hv : eng.verify_ecdsa message (eng.to_standard rsig) pk with
    | ok u =>
      cases u
      refine ⟨?_, ?_, ?_⟩
      · rw [hvp, hv]
        simp [except_pure]
      · rw [hvp, hv]
        simp [except_pure]
      · intro x hx hc
        exact Except.noConfusion hc
    | error x =>
      refine ⟨?_, ?_, ?_⟩
      · rw [hvp, hv]
        cases x <;> simp [except_pure]
      · rw [hvp, hv]
        cases x <;> simp [except_pure]
      · intro y hy hc
        injection hc with hxy
        subst hxy
        rw [hvp, hv]
        cases x with
        | incorrectSignature => exact absurd rfl hy
        | invalidMessage => rfl
        | invalidRecoveryId => rfl
        | invalidSignature => rfl
        | invalidPublicKey => rfl
        | otherError => rfl
  · intro e h1
    simp only [verify_public, h1, liftSecp, except_bind_error]
  · intro rid e h1 h2
    simp only [verify_public, h1, h2, liftSecp, except_bind_ok,
      except_bind_error]
  · intro rid rsig e h1 h2 h3
    simp only [verify_public, h1, h2, h3, liftSecp, except_bind_ok,
      except_bind_error]
  · intro rid rsig pk h1 h2 h3 h4
    have hm : secpMessageFromSlice message = .error .invalidMessage := by
      simp [secpMessageFromSlice, h4]
    simp only [verify_public, h1, h2, h3, hm, liftSecp, except_bind_ok,
      except_bind_error]

/-- Witness for C4 at the concrete test engine, whose verify always
succeeds. -/
theorem verify_public_cases_witness :
    verify_public testEngine (List.replicate 64 9) ⟨List.replicate 65 0⟩
      (List.replicate 32 0) = .ok true := by
  have h := (verify_public_cases testEngine (List.replicate 64 9)
      ⟨List.replicate 65 0⟩ (List.replicate 32 0)).1 0
      ((List.replicate 65 0 : List Nat).take 64, 0)
      (4 :: List.replicate 64 9) rfl rfl rfl (by decide)
  exact h.1.mpr rfl

/-- C6: `verify_address` propagates every recovery failure as `Err` and
otherwise answers `Ok(b)` with `b` true exactly when the derived address
matches; the trait method computes the same function. -/
theorem verify_address_cases (eng : SecpEngine)
    (pubkey_to_address : List Nat → List Nat) (address : List Nat)
    (signature : Signature) (message : List Nat) :
    (∀ e, recover eng signature message = .error e →
      verify_address eng pubkey_to_address address signature message =
        .error e) ∧
    (∀ pk, recover eng signature message = .ok pk →
      verify_address eng pubkey_to_address address signature message =
        .ok (address == pubkey_to_address pk) ∧
      ((address == pubkey_to_address pk) = true ↔
        address = pubkey_to_address pk)) ∧
    verifyAddressTraitImpl eng pubkey_to_address address signature message =
      verify_address eng pubkey_to_address address signature message := by
  refine ⟨?_, ?_, rfl⟩
  · intro e he
    simp [verify_address, he, except_bind_error]
  · intro pk hpk
    constructor
    · simp [verify_address, hpk, except_bind_ok, except_pure]
    · exact beq_iff_eq

/-- Witness for C6: a failing recovery propagates as the same error. -/
theorem verify_address_cases_witness :
    verify_address testEngine testAddrOf (List.replicate 20 0)
      ⟨List.replicate 64 0 ++ [4]⟩ (List.replicate 32 0) =
      .error (Error.secp SecpError.invalidRecoveryId) :=
  (verify_address_cases testEngine testAddrOf (List.replicate 20 0)
      ⟨List.replicate 64 0 ++ [4]⟩ (List.replicate 32 0)).1
    (Error.secp SecpError.invalidRecoveryId) rfl

/-- Outcome of the RLP value-decoding closure of `Decodable for
Signature`: either a decoded signature, or an abort — `copy_from_slice`
into the fixed `[u8; 65]` buffer aborts the thread when the source length
differs. -/
inductive RlpDecodeOutcome
  | ok (sig : Signature)
  | panicked
deriving DecidableEq

/-- The closure the `Decodable` impl hands to `decode_value`: copy the
byte-string payload verbatim into a fresh 65-byte buffer.  The source
performs no length check, so `copy_from_slice` aborts whenever the
payload length is not exactly 65. -/
def rlpDecodeValue (bytes : List Nat) : RlpDecodeOutcome :=
  if bytes.length = 65 then .ok ⟨bytes⟩ else .panicked

/-- `Encodable for Signature`: the encoded payload is `self.0[0..65]`. -/
def rlp_append (sig : Signature) : List Nat := sig.bytes.take 65

/-- Serde sequence-decoding outcome: a decoded signature together with
the elements left unconsumed, or the `invalid_length` error. -/
inductive SerdeOutcome
  | ok (sig : Signature) (rest : List Nat)
  | invalidLength (expected : Nat)
deriving DecidableEq

/-- The `visit_seq` loop of `Deserialize for Signature`: write the next
sequence element into `signature.0[i]` for each `i` below
`SIGNATURE_BYTES_LEN`, failing with `invalid_length` when the sequence
runs out; `fuel` counts the iterations left. -/
def visitSeqGo (fuel : Nat) (sig : List Nat) (i : Nat) (elems : List Nat) :
    SerdeOutcome :=
  match fuel with
  | 0 => .ok ⟨sig⟩ elems
  | fuel' + 1 =>
    match elems with
    | [] => .invalidLength SIGNATURE_BYTES_LEN
    | e :: rest => visitSeqGo fuel' (sig.set i e) (i + 1) rest

/-- `Deserialize for Signature` via `visit_seq`, starting from
`Signature([0u8; SIGNATURE_BYTES_LEN])` at index 0. -/
def deserialize (elems : List Nat) : SerdeOutcome :=
  visitSeqGo SIGNATURE_BYTES_LEN (List.replicate SIGNATURE_BYTES_LEN 0) 0 elems

/-- `Serialize for Signature`: the sequence of the 65 bytes `self.0[i]`
in index order. -/
def serialize (sig : Signature) : List Nat :=
  (List.range SIGNATURE_BYTES_LEN).map (fun i => sig.bytes.getD i 0)

lemma take_set (l : List Nat) (i e : Nat) (h : i < l.length) :
    (l.set i e).take (i + 1) = l.take i ++ [e] := by
  induction l generalizing i with
  | nil => simp at h
  | cons a t ih =>
    cases i with
    | zero => simp
    | succ j =>
      have hj : j < t.length := by simpa using h
      simp [ih j hj]

lemma visitSeqGo_short (fuel : Nat) :
    ∀ sig i elems, List.length elems < fuel →
      visitSeqGo fuel sig i elems = .invalidLength SIGNATURE_BYTES_LEN := by
  induction fuel with
  | zero =>
    intro sig i elems h
    exact absurd h (Nat.not_lt_zero _)
  | succ f ih =>
    intro sig i elems h
    cases elems with
    | nil => rfl
    | cons e rest =>
      simp only [visitSeqGo]
      exact ih _ _ _ (by simpa using h)

lemma visitSeqGo_complete (fuel : Nat) :
    ∀ sig i elems, fuel ≤ List.length elems →
      i + fuel = SIGNATURE_BYTES_LEN →
      List.length sig = SIGNATURE_BYTES_LEN →
      visitSeqGo fuel sig i elems =
        .ok ⟨sig.take i ++ elems.take fuel⟩ (elems.drop fuel) := by
  induction fuel with
  | zero =>
    intro sig i elems h1 h2 h3
    simp only [visitSeqGo, List.take_zero, List.drop_zero, List.append_nil]
    rw [List.take_of_length_le (by simp [SIGNATURE_BYTES_LEN] at h2 h3; omega)]
  | succ f ih =>
    intro sig i elems h1 h2 h3
    cases elems with
    | nil => simp at h1
    | cons e rest =>
      simp only [visitSeqGo]
      rw [ih (sig.set i e) (i + 1) rest (by simpa using h1) (by omega)
        (by simpa using h3)]
      rw [take_set sig i e (by simp [SIGNATURE_BYTES_LEN] at h2 h3; omega)]
      simp

lemma range_map_getD (l : List Nat) :
    (List.range (List.length l)).map (fun i => l.getD i 0) = l := by
  apply List.ext_getElem
  · simp
  · intro i h1 h2
    simp [List.getD_eq_getElem?_getD, List.getElem?_eq_getElem h2]

/-- C7: sequence decoding fails with the invalid-length error whenever
the sequence yields fewer than 65 elements, succeeds on a sequence of 65
or more elements producing exactly the signature of the first 65
elements in order, and consumes exactly 65 elements, leaving the rest. -/
theorem deserialize_cases (elems : List Nat) :
    (List.length elems < 65 →
      deserialize elems = .invalidLength SIGNATURE_BYTES_LEN) ∧
    (65 ≤ List.length elems →
      deserialize elems = .ok ⟨elems.take 65⟩ (elems.drop 65)) := by
  constructor
  · intro h
    exact visitSeqGo_short SIGNATURE_BYTES_LEN _ _ _ h
  · intro h
    have hc := visitSeqGo_complete SIGNATURE_BYTES_LEN
      (List.replicate SIGNATURE_BYTES_LEN 0) 0 elems h rfl (by simp)
    simpa using hc

/-- Witness for C7: a 64-element sequence is one short and fails; a
66-element sequence succeeds, reading exactly the first 65 elements. -/
theorem deserialize_cases_witness :
    deserialize (List.replicate 64 3) = .invalidLength SIGNATURE_BYTES_LEN ∧
    deserialize (List.replicate 66 5) =
      .ok ⟨(List.replicate 66 5 : List Nat).take 65⟩
        ((List.replicate 66 5 : List Nat).drop 65) :=
  ⟨(deserialize_cases (List.replicate 64 3)).1 (by decide),
   (deserialize_cases (List.replicate 66 5)).2 (by decide)⟩

/-- C2: the fixed-length binary decoder copies the payload with no length
check: a payload of length 1 or 64 aborts the thread instead of
returning a typed decoder error, while a payload of exactly 65 bytes
decodes to a signature holding those bytes verbatim. -/
theorem rlp_decode_no_length_check :
    rlpDecodeValue [1] = RlpDecodeOutcome.panicked ∧
    rlpDecodeValue (List.replicate 64 2) = RlpDecodeOutcome.panicked ∧
    rlpDecodeValue (List.replicate 65 3) =
      RlpDecodeOutcome.ok ⟨List.replicate 65 3⟩ := by
  refine ⟨rfl, ?_, ?_⟩ <;> decide

/-- C8: both serialization adapters are lossless on any 65-byte buffer:
RLP value-decoding then re-encoding reproduces the buffer, and sequence
decoding then re-serializing reproduces the buffer. -/
theorem roundtrip (B : List Nat) (h : List.length B = 65) :
    (rlpDecodeValue B = RlpDecodeOutcome.ok ⟨B⟩ ∧ rlp_append ⟨B⟩ = B) ∧
    (deserialize B = SerdeOutcome.ok ⟨B⟩ [] ∧ serialize ⟨B⟩ = B) := by
  refine ⟨⟨?_, ?_⟩, ?_, ?_⟩
  · simp [rlpDecodeValue, h]
  · simp only [rlp_append]
    exact List.take_of_length_le (by omega)
  · have hc := visitSeqGo_complete SIGNATURE_BYTES_LEN
      (List.replicate SIGNATURE_BYTES_LEN 0) 0 B (by rw [h]; decide) rfl (by simp)
    have hd : deserialize B = .ok ⟨B.take 65⟩ (B.drop 65) := by simpa using hc
    rw [hd, List.take_of_length_le (by omega), List.drop_eq_nil_of_le (by omega)]
  · simp only [serialize]
    rw [show SIGNATURE_BYTES_LEN = List.length B from h.symm]
    exact range_map_getD B

/-- Witness for C8 at a concrete 65-byte buffer. -/
theorem roundtrip_witness :
    (rlpDecodeValue (List.replicate 65 7) =
        RlpDecodeOutcome.ok ⟨List.replicate 65 7⟩ ∧
      rlp_append ⟨List.replicate 65 7⟩ = List.replicate 65 7) ∧
    (deserialize (List.replicate 65 7) =
        SerdeOutcome.ok ⟨List.replicate 65 7⟩ [] ∧
      serialize ⟨List.replicate 65 7⟩ = List.replicate 65 7) :=
  roundtrip (List.replicate 65 7) (by decide)

end CitaSecp
